import Mathlib

/-!
Verification of the Session Mode Router and Streaming Command Dispatcher of
the `openclaw` repository against its natural-language specification.

The development shallowly embeds the TypeScript sources
`src/auto-reply/reply/commands-opencode.ts` and
`src/auto-reply/reply/commands-opencode 2.ts` (the mode-router slice of
`getReplyFromConfig`).  Strings are modelled as `List Char`; JavaScript
string helpers (`trim`, `split(/\s+/)`, `join(" ")`, `toLowerCase`,
`startsWith`, `slice`) are given as executable Lean functions below.  The
Node `path` module and the filesystem/subprocess/Slack collaborators are
external to the repository; where a function consults them the model takes
the collaborator outcome as an explicit argument and this is documented at
the definition.
-/

namespace OpenClaw

/-- Strings, modelled as lists of characters. -/
abbrev Str := List Char

/-- Whitespace test, modelling the characters matched by JavaScript `\s`
and trimmed by `String.prototype.trim` (restricted to the ASCII whitespace
characters: space, tab, newline, carriage return, vertical tab, form feed). -/
def isWsChar (c : Char) : Bool :=
  c = ' ' || c = '\t' || c = '\n' || c = '\r' || c = '\x0b' || c = '\x0c'

/-- ASCII model of JavaScript `toLowerCase` on a single character:
uppercase ASCII letters map to the corresponding lowercase letter, every
other character is unchanged. -/
def toLowerChar (c : Char) : Char :=
  match c with
  | 'A' => 'a' | 'B' => 'b' | 'C' => 'c' | 'D' => 'd' | 'E' => 'e'
  | 'F' => 'f' | 'G' => 'g' | 'H' => 'h' | 'I' => 'i' | 'J' => 'j'
  | 'K' => 'k' | 'L' => 'l' | 'M' => 'm' | 'N' => 'n' | 'O' => 'o'
  | 'P' => 'p' | 'Q' => 'q' | 'R' => 'r' | 'S' => 's' | 'T' => 't'
  | 'U' => 'u' | 'V' => 'v' | 'W' => 'w' | 'X' => 'x' | 'Y' => 'y'
  | 'Z' => 'z'
  | c => c

/-- `s.toLowerCase()`. -/
def lowerStr (s : Str) : Str := s.map toLowerChar

/-- `s.trim()`: strip leading and trailing whitespace. -/
def trimStr (s : Str) : Str :=
  ((s.dropWhile isWsChar).reverse.dropWhile isWsChar).reverse

/-- Accumulator-style scanner behind `words`; `acc` holds the (reversed)
current word. -/
def wordsAux : Str → Str → List Str
  | [], acc => if acc = [] then [] else [acc.reverse]
  | c :: cs, acc =>
    if isWsChar c then
      if acc = [] then wordsAux cs [] else acc.reverse :: wordsAux cs []
    else wordsAux cs (c :: acc)

/-- The word list of a string: the semantics of
`s.trim().split(/\s+/)` on an already-trimmed `s`, with the degenerate
`[""]` result of splitting the empty string represented as `[]` (the code
only ever observes `parts[0] || ""` and `join`, on which the two agree). -/
def words (s : Str) : List Str := wordsAux s []

/-- `parts.join(" ")`. -/
def joinWords : List Str → Str
  | [] => []
  | [w] => w
  | w :: x :: rest => w ++ ' ' :: joinWords (x :: rest)

/-- The non-whitespace characters of a string, in order. -/
def nonWs (s : Str) : Str := s.filter (fun c => !(isWsChar c))

/-- JavaScript `a || b` on strings: `b` when `a` is empty (falsy), else `a`. -/
def jsOrStr (a b : Str) : Str := if a = [] then b else a

/-- JavaScript `a || b` where `a` is `string | undefined`. -/
def jsOrOpt (a : Option Str) (b : Str) : Str :=
  match a with
  | Option.some v => jsOrStr v b
  | Option.none => b

/-- The parsed command value object.  The action field mirrors the source
union `"enter" | "switch" | "model" | "exit" | "plan" | "build" | null` of
`parseOpencodeCommand` in `commands-opencode.ts`, with `null` as `none`. -/
inductive Action where
  | enter | switch | model | exit | plan | build | none
  deriving DecidableEq, Repr

structure Command where
  action : Action
  value : Str
  deriving DecidableEq, Repr

/-- `DEFAULT_OPENCODE_AGENT` of `commands-opencode.ts` (the `!code`
version). -/
def DEFAULT_OPENCODE_AGENT : Str := "build".data

/-- `parseOpencodeCommand` of `commands-opencode.ts` (lines 472-516): the
`!code` command parser, with the `!plan `/`!build ` shortcut branches. -/
def parseOpencodeCommand (body : Str) : Command :=
  let normalized := trimStr body
  if normalized = "!code".data then ⟨Action.none, []⟩
  else if !("!code".data.isPrefixOf (lowerStr normalized)) then
    if "!plan ".data.isPrefixOf (lowerStr normalized) then
      ⟨Action.plan, trimStr (normalized.drop 5)⟩
    else if "!build ".data.isPrefixOf (lowerStr normalized) then
      ⟨Action.build, trimStr (normalized.drop 6)⟩
    else ⟨Action.none, []⟩
  else
    let parts := words (trimStr (normalized.drop 5))
    let firstPart := lowerStr (parts.headD [])
    if firstPart = "exit".data then ⟨Action.exit, []⟩
    else if firstPart = "switch".data then
      ⟨Action.switch, jsOrStr (trimStr (joinWords (parts.drop 1))) DEFAULT_OPENCODE_AGENT⟩
    else if firstPart = "model".data then
      ⟨Action.model, trimStr (joinWords (parts.drop 1))⟩
    else if parts.headD [] ≠ [] then
      ⟨Action.enter, trimStr (joinWords parts)⟩
    else ⟨Action.none, []⟩

/-- `parseOpencodeCommand` of `commands-opencode 2.ts` (lines 25-62): the
legacy `/opencode` parser.  Note it lowercases the whole body up front
(`body.trim().toLowerCase()`), so the argument it returns is lowercased. -/
def parseOpencodeCommandLegacy (body : Str) : Command :=
  let normalized := lowerStr (trimStr body)
  if normalized = "/opencode".data then ⟨Action.none, []⟩
  else if !("/opencode".data.isPrefixOf normalized) then ⟨Action.none, []⟩
  else
    let parts := words (trimStr (normalized.drop 9))
    let firstPart := parts.headD []
    if firstPart = "exit".data then ⟨Action.exit, []⟩
    else if firstPart = "switch".data then
      ⟨Action.switch, jsOrStr (trimStr (joinWords (parts.drop 1))) "plan/build".data⟩
    else if firstPart = "model".data then
      ⟨Action.model, trimStr (joinWords (parts.drop 1))⟩
    else if parts.headD [] ≠ [] then
      ⟨Action.enter, trimStr (joinWords parts)⟩
    else ⟨Action.none, []⟩

/-! ### Lemmas about the string model -/

theorem isWsChar_toLowerChar (c : Char) : isWsChar (toLowerChar c) = isWsChar c := by
  unfold toLowerChar
  split <;> rfl

theorem toLowerChar_cases (c : Char) :
    toLowerChar c = c ∨ toLowerChar c ∈ "abcdefghijklmnopqrstuvwxyz".data := by
  unfold toLowerChar
  split <;> first | (left; rfl) | (right; decide)

theorem toLowerChar_toLowerChar (c : Char) : toLowerChar (toLowerChar c) = toLowerChar c := by
  rcases toLowerChar_cases c with h | h
  · rw [h, h]
  · simp only [List.mem_cons, List.not_mem_nil, or_false] at h
    rcases h with h|h|h|h|h|h|h|h|h|h|h|h|h|h|h|h|h|h|h|h|h|h|h|h|h|h <;> rw [h] <;> rfl

theorem lowerStr_lowerStr (s : Str) : lowerStr (lowerStr s) = lowerStr s := by
  unfold lowerStr
  rw [List.map_map, show toLowerChar ∘ toLowerChar = toLowerChar from funext toLowerChar_toLowerChar]

theorem dropWhile_lowerStr (s : Str) :
    (lowerStr s).dropWhile isWsChar = lowerStr (s.dropWhile isWsChar) := by
  induction s with
  | nil => rfl
  | cons c cs ih =>
    by_cases h : isWsChar c
    · simpa [lowerStr, List.dropWhile_cons, isWsChar_toLowerChar, h] using ih
    · simp [lowerStr, List.dropWhile_cons, isWsChar_toLowerChar, h]

theorem lowerStr_reverse (s : Str) : lowerStr s.reverse = (lowerStr s).reverse :=
  List.map_reverse toLowerChar s

theorem trimStr_lowerStr (s : Str) : trimStr (lowerStr s) = lowerStr (trimStr s) := by
  unfold trimStr
  rw [dropWhile_lowerStr, ← lowerStr_reverse, dropWhile_lowerStr, ← lowerStr_reverse]

theorem lowerStr_drop (s : Str) (n : Nat) : (lowerStr s).drop n = lowerStr (s.drop n) :=
  (List.map_drop toLowerChar s n).symm

theorem lowerStr_eq_nil {s : Str} : lowerStr s = [] ↔ s = [] := List.map_eq_nil_iff

theorem lowerStr_length (s : Str) : (lowerStr s).length = s.length :=
  List.length_map s toLowerChar

theorem notWs_space : (!(isWsChar ' ')) = false := rfl

theorem nonWs_append (a b : Str) : nonWs (a ++ b) = nonWs a ++ nonWs b :=
  List.filter_append a b

theorem nonWs_dropWhile (s : Str) : nonWs (s.dropWhile isWsChar) = nonWs s := by
  induction s with
  | nil => rfl
  | cons c cs ih =>
    by_cases h : isWsChar c
    · simpa [List.dropWhile_cons, h, nonWs, List.filter_cons] using ih
    · simp [List.dropWhile_cons, h]

theorem nonWs_reverse (s : Str) : nonWs s.reverse = (nonWs s).reverse :=
  List.filter_reverse _ s

theorem nonWs_trim (s : Str) : nonWs (trimStr s) = nonWs s := by
  unfold trimStr
  rw [nonWs_reverse, nonWs_dropWhile, nonWs_reverse, List.reverse_reverse, nonWs_dropWhile]

theorem nonWs_drop_suffix (s : Str) (k : Nat) : nonWs (s.drop k) <:+ nonWs s :=
  ⟨nonWs (s.take k), by rw [← nonWs_append, List.take_append_drop]⟩

theorem wordsAux_flatten (s acc : Str) :
    (wordsAux s acc).flatten = acc.reverse ++ nonWs s := by
  induction s generalizing acc with
  | nil =>
    unfold wordsAux
    by_cases h : acc = [] <;> simp [h, nonWs]
  | cons c cs ih =>
    unfold wordsAux
    by_cases h : isWsChar c
    · by_cases h2 : acc = [] <;> simp [h, h2, ih, nonWs, List.filter_cons]
    · simp [h, ih, nonWs, List.filter_cons]

theorem flatten_words (s : Str) : (words s).flatten = nonWs s := by
  simpa using wordsAux_flatten s []

theorem wordsAux_wsFree (s : Str) :
    ∀ acc : Str, nonWs acc = acc → ∀ w ∈ wordsAux s acc, nonWs w = w := by
  induction s with
  | nil =>
    intro acc hacc w hw
    unfold wordsAux at hw
    by_cases h : acc = []
    · simp [h] at hw
    · simp [h] at hw
      subst hw
      rw [nonWs_reverse, hacc]
  | cons c cs ih =>
    intro acc hacc w hw
    unfold wordsAux at hw
    by_cases h : isWsChar c
    · by_cases h2 : acc = []
      · simp [h, h2] at hw
        exact ih [] rfl w hw
      · simp [h, h2] at hw
        rcases hw with hw | hw
        · subst hw; rw [nonWs_reverse, hacc]
        · exact ih [] rfl w hw
    · simp [h] at hw
      refine ih (c :: acc) ?_ w hw
      simp [nonWs, List.filter_cons, h] at hacc ⊢
      exact hacc

theorem words_wsFree (s : Str) : ∀ w ∈ words s, nonWs w = w :=
  wordsAux_wsFree s [] rfl

theorem nonWs_joinWords (l : List Str) : nonWs (joinWords l) = (l.map nonWs).flatten := by
  induction l with
  | nil => rfl
  | cons w ws ih =>
    cases ws with
    | nil => simp [joinWords, nonWs]
    | cons x rest =>
      rw [joinWords, nonWs_append]
      simp only [List.map_cons, List.flatten_cons]
      rw [show (' ' :: joinWords (x :: rest)) = [' '] ++ joinWords (x :: rest) from rfl,
        nonWs_append, ih]
      simp [nonWs, List.filter_cons, isWsChar]

theorem nonWs_joinWords_words_drop (s : Str) (k : Nat) :
    nonWs (joinWords ((words s).drop k)) <:+ nonWs s := by
  rw [nonWs_joinWords]
  have h1 : ((words s).drop k).map nonWs = (words s).drop k := by
    rw [List.map_congr_left fun w hw => words_wsFree s w (List.drop_subset k (words s) hw)]
    exact List.map_id _
  rw [h1]
  have h2 : (words s).flatten =
      ((words s).take k).flatten ++ ((words s).drop k).flatten := by
    rw [← List.flatten_append, List.take_append_drop]
  rw [← flatten_words s, h2]
  exact List.suffix_append _ _

theorem nonWs_joinWords_words (s : Str) : nonWs (joinWords (words s)) = nonWs s := by
  rw [nonWs_joinWords]
  have h1 : (words s).map nonWs = words s := by
    rw [List.map_congr_left fun w hw => words_wsFree s w hw]
    exact List.map_id _
  rw [h1, flatten_words]

theorem headD_lowerStr (l : List Str) : (l.map lowerStr).headD [] = lowerStr (l.headD []) := by
  cases l <;> rfl

theorem wordsAux_lower (s : Str) :
    ∀ acc : Str, wordsAux (lowerStr s) (lowerStr acc) = (wordsAux s acc).map lowerStr := by
  induction s with
  | nil =>
    intro acc
    by_cases h : acc = []
    · subst h; rfl
    · have h2 : lowerStr acc ≠ [] := fun e => h (lowerStr_eq_nil.mp e)
      show (if lowerStr acc = [] then [] else [(lowerStr acc).reverse]) =
        (if acc = [] then [] else [acc.reverse]).map lowerStr
      rw [if_neg h2, if_neg h]
      simp [lowerStr_reverse]
  | cons c cs ih =>
    intro acc
    show wordsAux (toLowerChar c :: lowerStr cs) (lowerStr acc) = _
    unfold wordsAux
    rw [isWsChar_toLowerChar]
    by_cases h : isWsChar c
    · rw [if_pos h, if_pos h]
      by_cases h2 : acc = []
      · subst h2
        simpa using ih []
      · have h2L : lowerStr acc ≠ [] := fun e => h2 (lowerStr_eq_nil.mp e)
        rw [if_neg h2L, if_neg h2, List.map_cons, ← lowerStr_reverse]
        exact congrArg _ (ih [])
    · rw [if_neg h, if_neg h]
      exact ih (c :: acc)

theorem words_lowerStr (s : Str) : words (lowerStr s) = (words s).map lowerStr :=
  wordsAux_lower s []

/-- Lowercasing the whole message does not change the action returned by
the `!code` parser: the trigger prefix, the `!plan `/`!build ` shortcuts
and the `exit`/`switch`/`model` verbs are all matched case-insensitively. -/
theorem parse_action_lower (body : Str) :
    (parseOpencodeCommand (lowerStr body)).action = (parseOpencodeCommand body).action := by
  unfold parseOpencodeCommand
  rw [trimStr_lowerStr]
  set N := trimStr body with hN
  by_cases h1 : N = "!code".data
  · rw [h1]; rfl
  · by_cases h2 : lowerStr N = "!code".data
    · rw [if_neg h1, if_pos h2]
      have hlen : N.length = 5 := by
        have hl := congrArg List.length h2
        rw [lowerStr_length] at hl
        simpa using hl
      have hdrop : N.drop 5 = [] := List.drop_eq_nil_iff.mpr (by omega)
      have hpre : "!code".data.isPrefixOf (lowerStr N) = true := by rw [h2]; decide
      rw [hpre, hdrop]
      rfl
    · rw [if_neg h1, if_neg h2, lowerStr_lowerStr]
      by_cases hpre : "!code".data.isPrefixOf (lowerStr N) = true
      · rw [hpre]
        simp only [Bool.not_true, if_false]
        rw [if_neg Bool.false_ne_true, if_neg Bool.false_ne_true]
        have hparts : words (trimStr ((lowerStr N).drop 5)) =
            (words (trimStr (N.drop 5))).map lowerStr := by
          rw [lowerStr_drop, trimStr_lowerStr, words_lowerStr]
        rw [hparts, headD_lowerStr, lowerStr_lowerStr]
        by_cases e1 : lowerStr ((words (trimStr (N.drop 5))).headD []) = "exit".data
        · rw [if_pos e1, if_pos e1]
        · rw [if_neg e1, if_neg e1]
          by_cases e2 : lowerStr ((words (trimStr (N.drop 5))).headD []) = "switch".data
          · rw [if_pos e2, if_pos e2]
          · rw [if_neg e2, if_neg e2]
            by_cases e3 : lowerStr ((words (trimStr (N.drop 5))).headD []) = "model".data
            · rw [if_pos e3, if_pos e3]
            · rw [if_neg e3, if_neg e3]
              by_cases e4 : (words (trimStr (N.drop 5))).headD [] = []
              · have e4L : lowerStr ((words (trimStr (N.drop 5))).headD []) = [] := by
                  rw [e4]; rfl
                rw [if_neg (fun hc => hc e4L), if_neg (fun hc => hc e4)]
              · have e4L : lowerStr ((words (trimStr (N.drop 5))).headD []) ≠ [] :=
                  fun e => e4 (lowerStr_eq_nil.mp e)
                rw [if_pos e4L, if_pos e4]
      · have hpre2 : "!code".data.isPrefixOf (lowerStr N) = false := by
          rwa [Bool.not_eq_true] at hpre
        rw [hpre2]
        simp only [Bool.not_false]
        rw [if_pos trivial, if_pos trivial]
        by_cases hb1 : "!plan ".data.isPrefixOf (lowerStr N) = true
        · rw [if_pos hb1, if_pos hb1]
        · rw [if_neg hb1, if_neg hb1]
          by_cases hb2 : "!build ".data.isPrefixOf (lowerStr N) = true
          · rw [if_pos hb2, if_pos hb2]
          · rw [if_neg hb2, if_neg hb2]

/-- The argument returned by the `!code` parser is taken verbatim from the
input message: except when it is empty or the substituted default agent,
its non-whitespace characters are a contiguous suffix of the non-whitespace
characters of the input, in the input's original casing. -/
theorem parse_value_cases (body : Str) :
    (parseOpencodeCommand body).value = [] ∨
    (parseOpencodeCommand body).value = DEFAULT_OPENCODE_AGENT ∨
    nonWs (parseOpencodeCommand body).value <:+ nonWs body := by
  have hdropN : ∀ k : Nat, nonWs (trimStr ((trimStr body).drop k)) <:+ nonWs body := by
    intro k
    rw [nonWs_trim, ← nonWs_trim body]
    exact nonWs_drop_suffix (trimStr body) k
  have hsub : ∀ k : Nat,
      nonWs (trimStr (joinWords ((words (trimStr ((trimStr body).drop 5))).drop k))) <:+
        nonWs body := by
    intro k
    rw [nonWs_trim]
    exact (nonWs_joinWords_words_drop (trimStr ((trimStr body).drop 5)) k).trans (hdropN 5)
  simp only [parseOpencodeCommand]
  split
  · left; rfl
  · split
    · split
      · right; right; exact hdropN 5
      · split
        · right; right; exact hdropN 6
        · left; rfl
    · split
      · left; rfl
      · split
        · simp only [jsOrStr]
          split
          · right; left; rfl
          · right; right; exact hsub 1
        · split
          · right; right; exact hsub 1
          · split
            · right; right
              have h0 := hsub 0
              rwa [List.drop_zero] at h0
            · left; rfl

/-! ### Claims C8 and C9: the command parser -/

/-- Claim C8, amended.  The parser is a total function by construction
(every branch returns a `Command`).  An input that is the bare `!code`
prefix alone, or that matches neither the `!code` trigger prefix nor the
`!plan `/`!build ` shortcut prefixes (all case-insensitively), parses to
the command `⟨none, ""⟩`. -/
theorem C8_unmatched_input_yields_none (body : Str)
    (h : trimStr body = "!code".data ∨
      ("!code".data.isPrefixOf (lowerStr (trimStr body)) = false ∧
       "!plan ".data.isPrefixOf (lowerStr (trimStr body)) = false ∧
       "!build ".data.isPrefixOf (lowerStr (trimStr body)) = false)) :
    parseOpencodeCommand body = ⟨Action.none, []⟩ := by
  unfold parseOpencodeCommand
  rcases h with h | ⟨h1, h2, h3⟩
  · simp [h]
  · have h0 : trimStr body ≠ "!code".data := by
      intro e
      rw [e] at h1
      exact absurd h1 (by decide)
    simp [h0, h1, h2, h3]

/-- Claim C8, witness for the amended theorem at the concrete input
`"hello world"`. -/
theorem C8_unmatched_input_yields_none_witness :
    parseOpencodeCommand "hello world".data = ⟨Action.none, []⟩ :=
  C8_unmatched_input_yields_none "hello world".data (Or.inr (by decide))

/-- Claim C8, counterexample to the claim as stated: the input `"!plan x"`
does not match the `!code` trigger prefix, yet the parser returns the
command `⟨plan, "x"⟩`, not `⟨none, ""⟩`. -/
theorem C8_counterexample_plan_shortcut :
    parseOpencodeCommand "!plan x".data = ⟨Action.plan, "x".data⟩ ∧
    "!code".data.isPrefixOf (lowerStr (trimStr "!plan x".data)) = false ∧
    trimStr "!plan x".data ≠ "!code".data ∧
    Action.plan ≠ Action.none := by
  refine ⟨by decide, by decide, by decide, by decide⟩

/-- Claim C9, amended, for the live `!code` parser of
`commands-opencode.ts`: (1) the action is invariant under lowercasing the
whole input (prefix and verbs are matched case-insensitively); (2) the
returned argument is either empty, or the substituted default agent, or
drawn verbatim (original casing) from the input: its non-whitespace
characters are a suffix of the input's non-whitespace characters; (3) a
concrete demonstration: uppercase prefix and verb are recognized while the
argument `MyAgent` keeps its casing. -/
theorem C9_case_insensitive_matching_argument_casing_preserved :
    (∀ body : Str,
      (parseOpencodeCommand (lowerStr body)).action = (parseOpencodeCommand body).action) ∧
    (∀ body : Str,
      (parseOpencodeCommand body).value = [] ∨
      (parseOpencodeCommand body).value = DEFAULT_OPENCODE_AGENT ∨
      nonWs (parseOpencodeCommand body).value <:+ nonWs body) ∧
    parseOpencodeCommand "!CODE SWITCH MyAgent".data = ⟨Action.switch, "MyAgent".data⟩ :=
  ⟨parse_action_lower, parse_value_cases, by decide⟩

/-- Claim C9, counterexample to the claim as stated: the legacy
`/opencode` parser of `commands-opencode 2.ts` lowercases the entire body
before parsing, so the argument of `"/opencode switch MyAgent"` comes back
as `"myagent"`, not the original `"MyAgent"`. -/
theorem C9_counterexample_legacy_parser_lowercases_argument :
    (parseOpencodeCommandLegacy "/opencode switch MyAgent".data).value = "myagent".data ∧
    (parseOpencodeCommandLegacy "/opencode switch MyAgent".data).value ≠ "MyAgent".data := by
  refine ⟨by decide, by decide⟩

/-! ### Model of the Node `path` module (POSIX) and the environment

The Node `path` module is an external collaborator of the repository; the
functions below model `path.normalize`, `path.isAbsolute`, `path.join`,
`path.resolve` and `path.basename` for POSIX paths (dot and dot-dot
segments, duplicate separators; trailing-separator preservation is not
modelled as no claim depends on it). -/

def splitOnSlashAux : Str → Str → List Str
  | [], acc => [acc.reverse]
  | c :: cs, acc =>
    if c = '/' then acc.reverse :: splitOnSlashAux cs []
    else splitOnSlashAux cs (c :: acc)

/-- Split a path at `/` separators, keeping empty segments. -/
def splitOnSlash (s : Str) : List Str := splitOnSlashAux s []

/-- Process `.`, `..` and empty segments, as `path.normalize` does. -/
def normSegs (isAbs : Bool) : List Str → List Str → List Str
  | [], acc => acc.reverse
  | seg :: rest, acc =>
    if seg = [] ∨ seg = ".".data then normSegs isAbs rest acc
    else if seg = "..".data then
      match acc with
      | [] => if isAbs then normSegs isAbs rest [] else normSegs isAbs rest [seg]
      | top :: acc2 =>
        if top = "..".data then normSegs isAbs rest (seg :: acc)
        else normSegs isAbs rest acc2
    else normSegs isAbs rest (seg :: acc)

def joinSegs : List Str → Str
  | [] => []
  | [x] => x
  | x :: y :: rest => x ++ '/' :: joinSegs (y :: rest)

/-- `path.isAbsolute` (POSIX). -/
def pathIsAbsolute (p : Str) : Bool :=
  match p with
  | '/' :: _ => true
  | _ => false

/-- `path.normalize` (POSIX). -/
def pathNormalize (p : Str) : Str :=
  let isAbs := pathIsAbsolute p
  let core := joinSegs (normSegs isAbs (splitOnSlash p) [])
  if isAbs then '/' :: core
  else if core = [] then ".".data
  else core

/-- `path.join(a, b)` (POSIX). -/
def pathJoin (a b : Str) : Str :=
  if a = [] then pathNormalize b
  else if b = [] then pathNormalize a
  else pathNormalize (a ++ '/' :: b)

/-- `path.resolve(cwd, p)` for an absolute `cwd`, the only use in the
source. -/
def pathResolve (cwd p : Str) : Str :=
  if pathIsAbsolute p then pathNormalize p else pathNormalize (cwd ++ '/' :: p)

/-- `s.replace(/\/+$/, "")` of `getRepoName`. -/
def stripTrailingSlashes (s : Str) : Str :=
  (s.reverse.dropWhile (fun c => c = '/')).reverse

/-- `path.basename` on a path without trailing separators. -/
def pathBasename (s : Str) : Str := (splitOnSlash s).getLastD []

/-- Modelled environment: the value of `os.homedir()`. -/
def ENV_HOMEDIR : Str := "/home/user".data

/-- Modelled environment: the value of `process.cwd()`. -/
def ENV_CWD : Str := "/cwd".data

/-- `getRepoName` of `commands-opencode.ts` (lines 699-705). -/
def getRepoName (projectDir : Str) : Str :=
  if projectDir = [] then "unknown".data
  else jsOrStr (pathBasename (stripTrailingSlashes projectDir)) "unknown".data

/-- `validateProjectDir` of `commands-opencode.ts` (lines 518-543):
`~` expansion against the home directory, `path.normalize`, and resolution
of relative paths against the current working directory.  Returns `none`
exactly for empty / whitespace-only input. -/
def validateProjectDir (projectDir : Str) : Option Str :=
  if projectDir = [] ∨ trimStr projectDir = [] then Option.none
  else
    let expanded := trimStr projectDir
    let expanded :=
      match expanded with
      | '~' :: rest =>
        match rest with
        | [] => ENV_HOMEDIR
        | '/' :: rest2 => pathJoin ENV_HOMEDIR rest2
        | _ => pathJoin ENV_HOMEDIR rest
      | _ => expanded
    let normalized := pathNormalize expanded
    if pathIsAbsolute normalized then Option.some normalized
    else Option.some (pathResolve ENV_CWD normalized)

/-! ### The session entry (`ModeState`) and the direct `!code` handler -/

/-- The mode-related slice of `SessionEntry` (`src/config/sessions.ts`
consumer view): the three backend-active flags with their per-backend
project directory, agent, model and response prefix, plus `updatedAt`.
`Option.none` models an `undefined` field. -/
structure SessionEntry where
  opencodeMode : Bool := false
  opencodeProjectDir : Option Str := Option.none
  opencodeAgent : Option Str := Option.none
  opencodeModel : Option Str := Option.none
  opencodeResponsePrefix : Option Str := Option.none
  claudeCodeMode : Bool := false
  claudeCodeProjectDir : Option Str := Option.none
  claudeCodeAgent : Option Str := Option.none
  claudeCodeModel : Option Str := Option.none
  claudeCodeResponsePrefix : Option Str := Option.none
  codexMode : Bool := false
  codexProjectDir : Option Str := Option.none
  codexAgent : Option Str := Option.none
  codexModel : Option Str := Option.none
  codexResponsePrefix : Option Str := Option.none
  updatedAt : Nat := 0
  deriving DecidableEq, Repr

/-- The `opencodeMode ? "opencode" : claudeCodeMode ? "claude" :
codexMode ? "codex" : null` chain used by the `switch`/`model` guards. -/
def currentCodingMode (e : SessionEntry) : Option Str :=
  if e.opencodeMode then Option.some "opencode".data
  else if e.claudeCodeMode then Option.some "claude".data
  else if e.codexMode then Option.some "codex".data
  else Option.none

/-- The fields cleared by the `exit` branch of
`handleOpencodeCommandDirect` (lines 838-853): all fifteen backend-specific
fields of all three backends. -/
def clearAllModes (e : SessionEntry) : SessionEntry :=
  { e with
    opencodeMode := false, opencodeProjectDir := Option.none,
    opencodeAgent := Option.none, opencodeModel := Option.none,
    opencodeResponsePrefix := Option.none,
    claudeCodeMode := false, claudeCodeProjectDir := Option.none,
    claudeCodeAgent := Option.none, claudeCodeModel := Option.none,
    claudeCodeResponsePrefix := Option.none,
    codexMode := false, codexProjectDir := Option.none,
    codexAgent := Option.none, codexModel := Option.none,
    codexResponsePrefix := Option.none }

def notInCodingModeText : Str :=
  "❌ Not in coding mode. Use `!code [project_dir]` to enter coding mode first.".data

def notInOpencodeModeText : Str :=
  "❌ Not in opencode mode. Use `!code [project_dir]` to enter opencode mode first.".data

def exitedCodingModeText : Str :=
  "🚪 Exited coding mode. Messages will now go to the normal OpenClaw agent.".data

def invalidProjectDirText : Str := "❌ Invalid project directory.".data

/-- Result of one call of the direct handler: the (possibly mutated)
session entry, the reply payload text (`Option.none` models the handler
returning `null`, i.e. the caller falls through), and whether the mutation
was written to the session store (`updateSessionStore`). -/
structure DirectResult where
  entry : SessionEntry
  reply : Option Str
  persisted : Bool
  deriving DecidableEq, Repr

/-- `handleOpencodeCommandDirect` of `commands-opencode.ts`
(lines 801-944), modelled with the session entry, session store, session
key and store path all present (the configuration the router uses);
`now` stands for `Date.now()`. -/
def handleOpencodeCommandDirect (commandBody : Str) (now : Nat) (e : SessionEntry) :
    DirectResult :=
  let parsed := parseOpencodeCommand commandBody
  match parsed.action with
  | Action.none =>
    let currentModeText :=
      jsOrOpt (currentCodingMode e) "none".data
    let currentProject :=
      jsOrOpt e.opencodeProjectDir
        (jsOrOpt e.claudeCodeProjectDir (jsOrOpt e.codexProjectDir "none".data))
    let currentAgent :=
      jsOrOpt e.opencodeAgent
        (jsOrOpt e.claudeCodeAgent (jsOrOpt e.codexAgent "plan/build".data))
    let currentModel :=
      jsOrOpt e.opencodeModel
        (jsOrOpt e.claudeCodeModel (jsOrOpt e.codexModel "default".data))
    ⟨e, Option.some
      ("Coding Mode\n\nUsage:\n• !code [proj_dir] - Enter coding mode\n• !code switch [agent] - Change agent (default: plan/build)\n• !code model [model] - Set model\n• !code exit - Exit coding mode\n• !plan <msg> - Run with plan agent\n• !build <msg> - Run with build agent\n\nCurrent:\n• Mode: ".data
        ++ currentModeText ++ "\n• Project: ".data ++ currentProject
        ++ "\n• Agent: ".data ++ currentAgent ++ "\n• Model: ".data ++ currentModel),
      false⟩
  | Action.exit =>
    ⟨{ clearAllModes e with updatedAt := now }, Option.some exitedCodingModeText, true⟩
  | Action.switch =>
    match currentCodingMode e with
    | Option.none => ⟨e, Option.some notInCodingModeText, false⟩
    | Option.some _ =>
      let agent := jsOrStr parsed.value DEFAULT_OPENCODE_AGENT
      ⟨{ e with opencodeAgent := Option.some agent, updatedAt := now },
        Option.some ("🤖 Agent set to: ".data ++ agent), true⟩
  | Action.model =>
    match currentCodingMode e with
    | Option.none => ⟨e, Option.some notInOpencodeModeText, false⟩
    | Option.some _ =>
      if parsed.value = [] then
        ⟨{ e with opencodeModel := Option.none, updatedAt := now },
          Option.some "🧹 Opencode model cleared (will use opencode's default).".data, true⟩
      else
        ⟨{ e with opencodeModel := Option.some parsed.value, updatedAt := now },
          Option.some ("📦 Opencode model set to: ".data ++ parsed.value), true⟩
  | Action.enter =>
    match validateProjectDir parsed.value with
    | Option.none => ⟨e, Option.some invalidProjectDirText, false⟩
    | Option.some projectDir =>
      let repoName := getRepoName projectDir
      let agent := jsOrOpt e.opencodeAgent DEFAULT_OPENCODE_AGENT
      let responsePrefix :=
        "[opencode:".data ++ repoName ++ "|".data ++ agent ++ "]".data
      ⟨{ e with
          opencodeMode := true, opencodeProjectDir := Option.some projectDir,
          opencodeAgent := Option.some agent,
          opencodeResponsePrefix := Option.some responsePrefix, updatedAt := now },
        Option.some ("🔓 Entered opencode mode!\n\nProject: ".data ++ projectDir
          ++ "\nAgent: ".data ++ agent ++ "\nModel: ".data
          ++ jsOrOpt e.opencodeModel "default".data
          ++ "\n\nAll messages will now be forwarded to opencode CLI. Use !code exit to leave.".data),
        true⟩
  | Action.plan => ⟨e, Option.none, false⟩
  | Action.build => ⟨e, Option.none, false⟩

/-! ### Channel-name triggered implicit mode entry with migration

Model of the channel auto-enter block of `getReplyFromConfig` in
`commands-opencode 2.ts` (lines 1433-1744). -/

inductive CodeMode where
  | opencode | claude | codex
  deriving DecidableEq, Repr

def codeModeName : CodeMode → Str
  | CodeMode.opencode => "opencode".data
  | CodeMode.claude => "claude".data
  | CodeMode.codex => "codex".data

/-- The `modeLabel` display names of line 1739. -/
def codeModeLabel : CodeMode → Str
  | CodeMode.opencode => "opencode".data
  | CodeMode.claude => "Claude Code".data
  | CodeMode.codex => "Codex".data

/-- The channel-label pattern `^#?(opencode|claude|codex)[-:](.+)$`
(case-insensitive), returning the matched mode and the project-name
capture (original casing). -/
def channelNameMatch (label : Str) : Option (CodeMode × Str) :=
  let body := match label with | '#' :: r => r | r => r
  let low := lowerStr body
  let pick : Option (CodeMode × Nat) :=
    if "opencode".data.isPrefixOf low then Option.some (CodeMode.opencode, 8)
    else if "claude".data.isPrefixOf low then Option.some (CodeMode.claude, 6)
    else if "codex".data.isPrefixOf low then Option.some (CodeMode.codex, 5)
    else Option.none
  match pick with
  | Option.none => Option.none
  | Option.some (m, k) =>
    match body.drop k with
    | [] => Option.none
    | c :: rest =>
      if (c = '-' ∨ c = ':') ∧ rest ≠ [] then Option.some (m, rest) else Option.none

/-- The fields cleared by the channel auto-enter block before entering the
new mode (lines 1692-1703).  Note: unlike the `exit` command, this clears
the mode flag, project dir, agent and response prefix of each backend but
not the three model fields. -/
def clearModesForChannelEntry (e : SessionEntry) : SessionEntry :=
  { e with
    opencodeMode := false, opencodeProjectDir := Option.none,
    opencodeAgent := Option.none, opencodeResponsePrefix := Option.none,
    claudeCodeMode := false, claudeCodeProjectDir := Option.none,
    claudeCodeAgent := Option.none, claudeCodeResponsePrefix := Option.none,
    codexMode := false, codexProjectDir := Option.none,
    codexAgent := Option.none, codexResponsePrefix := Option.none }

/-- Outcome of the channel auto-enter block.  `consumed` is whether the
block returned a reply (ending message processing).  The three migration
fields record the attempted filesystem effects of the migration step:
`migrationWritePath`/`migrationWriteContent` are the `writeFile` target and
data, `migrationMkdirDir` is the `mkdir` target. -/
structure AutoEnterResult where
  entry : SessionEntry
  consumed : Bool
  replyText : Option Str
  migrationWritePath : Option Str
  migrationWriteContent : Option Str
  migrationMkdirDir : Option Str
  persisted : Bool
  deriving DecidableEq, Repr

/-- The channel auto-enter block of `getReplyFromConfig`
(`commands-opencode 2.ts`, lines 1433-1744), non-Slack delivery path.

Collaborator outcomes taken as arguments:
* `workspaceHasProject` — whether `access(path.join(workspaceDir, projectName))`
  succeeds (lines 1474-1485); when false the name falls back to
  `validateProjectDir`;
* `migResult = (text, error)` — the `{text, error?}` returned by the
  previous backend's run command for the migration prompt (lines
  1641-1668), with `error = ""` when absent;
* `now` — `Date.now()`. -/
def channelAutoEnter (label workspaceDir : Str) (workspaceHasProject : Bool)
    (migResult : Str × Str) (now : Nat) (e : SessionEntry) : AutoEnterResult :=
  match channelNameMatch label with
  | Option.none => ⟨e, false, Option.none, Option.none, Option.none, Option.none, false⟩
  | Option.some (m, projectName) =>
    let currentModeT : Bool := e.opencodeMode || e.claudeCodeMode || e.codexMode
    let needsSwitch : Bool :=
      (decide (m = CodeMode.opencode) && !e.opencodeMode) ||
      (decide (m = CodeMode.claude) && !e.claudeCodeMode) ||
      (decide (m = CodeMode.codex) && !e.codexMode)
    let sessionDir :=
      match m with
      | CodeMode.opencode => e.opencodeProjectDir.getD []
      | CodeMode.claude => e.claudeCodeProjectDir.getD []
      | CodeMode.codex => e.codexProjectDir.getD []
    let projectDir :=
      if sessionDir = [] ∧ projectName ≠ [] then
        if workspaceHasProject then pathJoin workspaceDir projectName
        else (validateProjectDir projectName).getD []
      else sessionDir
    let previousMode : Option CodeMode :=
      if e.codexMode then Option.some CodeMode.codex
      else if e.claudeCodeMode then Option.some CodeMode.claude
      else if e.opencodeMode then Option.some CodeMode.opencode
      else Option.none
    let previousProjectDir : Option Str :=
      match previousMode with
      | Option.some CodeMode.codex => e.codexProjectDir
      | Option.some CodeMode.claude => e.claudeCodeProjectDir
      | Option.some CodeMode.opencode => e.opencodeProjectDir
      | Option.none => Option.none
    let modeChanged : Bool :=
      match previousMode with
      | Option.some pm =>
        decide (pm ≠ m) && decide (previousProjectDir.getD [] ≠ [])
      | Option.none => false
    let prevName : Str :=
      match previousMode with
      | Option.some pm => codeModeName pm
      | Option.none => []
    let migrationPath :=
      pathJoin (pathJoin projectDir ".handclaw".data)
        ("migration_from_".data ++ prevName ++ ".md".data)
    let oldProjectDir := jsOrOpt previousProjectDir projectDir
    let migContent :=
      jsOrStr migResult.1 (jsOrStr migResult.2 "No summary generated".data)
    let migDir := pathJoin oldProjectDir ".handclaw".data
    let migrationMessage : Str :=
      if modeChanged then
        "\n\n📦 Migrated from ".data ++ prevName ++ " → ".data ++ codeModeName m
          ++ ". Summary saved to `".data ++ migrationPath ++ "`".data
      else []
    let effectiveProjectDir :=
      if modeChanged then jsOrOpt previousProjectDir projectDir else projectDir
    if effectiveProjectDir ≠ [] ∧ (needsSwitch || !currentModeT || modeChanged) = true then
      let e1 := clearModesForChannelEntry e
      let e2 :=
        match m with
        | CodeMode.opencode =>
          let agent := jsOrOpt e1.opencodeAgent "build".data
          { e1 with
            opencodeMode := true, opencodeProjectDir := Option.some effectiveProjectDir,
            opencodeAgent := Option.some agent,
            opencodeResponsePrefix := Option.some
              ("[opencode:".data ++ projectName ++ "|".data ++ agent ++ "]".data),
            claudeCodeMode := false, codexMode := false }
        | CodeMode.claude =>
          let agent := jsOrOpt e1.claudeCodeAgent "build".data
          { e1 with
            claudeCodeMode := true, claudeCodeProjectDir := Option.some effectiveProjectDir,
            claudeCodeAgent := Option.some agent,
            claudeCodeResponsePrefix := Option.some
              ("[claude:".data ++ projectName ++ "|".data ++ agent ++ "]".data),
            opencodeMode := false, codexMode := false }
        | CodeMode.codex =>
          let agent := jsOrOpt e1.codexAgent "build".data
          { e1 with
            codexMode := true, codexProjectDir := Option.some effectiveProjectDir,
            codexAgent := Option.some agent,
            codexResponsePrefix := Option.some
              ("[codex:".data ++ projectName ++ "|".data ++ agent ++ "]".data),
            opencodeMode := false, claudeCodeMode := false }
      ⟨{ e2 with updatedAt := now }, true,
        Option.some ("🔓 Entered ".data ++ codeModeLabel m
          ++ " mode!\n\nProject: ".data ++ projectDir
          ++ "\n\nAll messages will now be forwarded to ".data ++ codeModeLabel m
          ++ " CLI.".data ++ migrationMessage),
        if modeChanged then Option.some migrationPath else Option.none,
        if modeChanged then Option.some migContent else Option.none,
        if modeChanged then Option.some migDir else Option.none,
        true⟩
    else
      ⟨e, false, Option.none,
        if modeChanged then Option.some migrationPath else Option.none,
        if modeChanged then Option.some migContent else Option.none,
        if modeChanged then Option.some migDir else Option.none,
        false⟩

/-! ### Claims C1, C2, C3, C6: the mode router -/

/-- Claim C1 (code bug): the at-most-one-active-backend invariant is
violated by the code.  A channel-name-triggered implicit entry into claude
mode followed by the explicit command `!code /tmp/proj` yields a session
state in which both `claudeCodeMode` and `opencodeMode` are true, because
the explicit `enter` branch of `handleOpencodeCommandDirect` (lines
912-941) sets the opencode fields without clearing the other two
backends' flags. -/
theorem C1_explicit_enter_breaks_single_mode_invariant :
    ((handleOpencodeCommandDirect "!code /tmp/proj".data 2
        (channelAutoEnter "#claude-proj".data "/ws".data false ([], []) 1 {}).entry).entry.opencodeMode
      = true) ∧
    ((handleOpencodeCommandDirect "!code /tmp/proj".data 2
        (channelAutoEnter "#claude-proj".data "/ws".data false ([], []) 1 {}).entry).entry.claudeCodeMode
      = true) ∧
    ((channelAutoEnter "#claude-proj".data "/ws".data false ([], []) 1 {}).entry.claudeCodeMode = true ∧
     (channelAutoEnter "#claude-proj".data "/ws".data false ([], []) 1 {}).entry.opencodeMode = false) := by
  refine ⟨by decide, by decide, by decide, by decide⟩

/-- Claim C2, counterexample to the claim as stated: a `switch` command
issued while a *different* backend (claude) is active is not rejected.
The handler mutates the session (it sets `opencodeAgent`), persists the
mutation, and replies with a success message instead of the not-in-mode
error. -/
theorem C2_counterexample_switch_accepted_in_other_mode :
    ((handleOpencodeCommandDirect "!code switch tester".data 5
        ({ claudeCodeMode := true, claudeCodeProjectDir := Option.some "/p".data } :
          SessionEntry)).entry.opencodeAgent = Option.some "tester".data) ∧
    ((handleOpencodeCommandDirect "!code switch tester".data 5
        ({ claudeCodeMode := true, claudeCodeProjectDir := Option.some "/p".data } :
          SessionEntry)).persisted = true) ∧
    ((handleOpencodeCommandDirect "!code switch tester".data 5
        ({ claudeCodeMode := true, claudeCodeProjectDir := Option.some "/p".data } :
          SessionEntry)).reply = Option.some ("🤖 Agent set to: tester".data)) ∧
    ((handleOpencodeCommandDirect "!code switch tester".data 5
        ({ claudeCodeMode := true, claudeCodeProjectDir := Option.some "/p".data } :
          SessionEntry)).entry ≠
      ({ claudeCodeMode := true, claudeCodeProjectDir := Option.some "/p".data } :
        SessionEntry)) := by
  refine ⟨by decide, by decide, by decide, by decide⟩

/-- Claim C2, amended: a `switch` or `model` command issued while *no*
backend is active leaves the session entry unchanged, persists nothing and
returns a not-in-mode error reply.  (When a different backend is active
the command is instead accepted and mutates the opencode fields — see the
counterexample.) -/
theorem C2_switch_model_rejected_when_no_mode_active
    (e : SessionEntry) (now : Nat) (body : Str)
    (h1 : e.opencodeMode = false) (h2 : e.claudeCodeMode = false)
    (h3 : e.codexMode = false)
    (hact : (parseOpencodeCommand body).action = Action.switch ∨
            (parseOpencodeCommand body).action = Action.model) :
    (handleOpencodeCommandDirect body now e).entry = e ∧
    (handleOpencodeCommandDirect body now e).persisted = false ∧
    ((handleOpencodeCommandDirect body now e).reply = Option.some notInCodingModeText ∨
     (handleOpencodeCommandDirect body now e).reply = Option.some notInOpencodeModeText) := by
  have hmode : currentCodingMode e = Option.none := by
    simp [currentCodingMode, h1, h2, h3]
  rcases hact with h | h <;>
    simp [handleOpencodeCommandDirect, h, hmode]

/-- Claim C2, witness for the amended theorem at the concrete inputs
`!code switch` and the fresh session entry. -/
theorem C2_switch_model_rejected_when_no_mode_active_witness :
    (handleOpencodeCommandDirect "!code switch".data 7 {}).entry = ({} : SessionEntry) ∧
    (handleOpencodeCommandDirect "!code switch".data 7 {}).persisted = false ∧
    ((handleOpencodeCommandDirect "!code switch".data 7 {}).reply =
        Option.some notInCodingModeText ∨
     (handleOpencodeCommandDirect "!code switch".data 7 {}).reply =
        Option.some notInOpencodeModeText) :=
  C2_switch_model_rejected_when_no_mode_active {} 7 "!code switch".data rfl rfl rfl
    (Or.inl (by decide))

/-- Claim C3 (code bug): during a channel-triggered migration (codex
active on `/old`, channel `#opencode-newproj` resolving to
`/ws/newproj`), the migration file is written to
`<newProjectDir>/.handclaw/migration_from_codex.md` — the *new* project
directory — while the immediately preceding `mkdir` targets
`<oldProjectDir>/.handclaw` (lines 1511 vs 1671-1675), contradicting both
the spec ("under the old project directory") and the code's own `mkdir`.
The rest of the claim holds: when the backend invocation fails the error
text is what gets written, and the mode transition to the new backend
still completes (with the old project directory carried over). -/
theorem C3_migration_file_written_under_new_project_dir :
    ((channelAutoEnter "#opencode-newproj".data "/ws".data true
        ([], "⚠️ backend failed".data) 5
        ({ codexMode := true, codexProjectDir := Option.some "/old".data } :
          SessionEntry)).migrationWritePath =
      Option.some "/ws/newproj/.handclaw/migration_from_codex.md".data) ∧
    ((channelAutoEnter "#opencode-newproj".data "/ws".data true
        ([], "⚠️ backend failed".data) 5
        ({ codexMode := true, codexProjectDir := Option.some "/old".data } :
          SessionEntry)).migrationMkdirDir = Option.some "/old/.handclaw".data) ∧
    ((channelAutoEnter "#opencode-newproj".data "/ws".data true
        ([], "⚠️ backend failed".data) 5
        ({ codexMode := true, codexProjectDir := Option.some "/old".data } :
          SessionEntry)).migrationWritePath ≠
      Option.some "/old/.handclaw/migration_from_codex.md".data) ∧
    ((channelAutoEnter "#opencode-newproj".data "/ws".data true
        ([], "⚠️ backend failed".data) 5
        ({ codexMode := true, codexProjectDir := Option.some "/old".data } :
          SessionEntry)).migrationWriteContent =
      Option.some "⚠️ backend failed".data) ∧
    ((channelAutoEnter "#opencode-newproj".data "/ws".data true
        ([], "⚠️ backend failed".data) 5
        ({ codexMode := true, codexProjectDir := Option.some "/old".data } :
          SessionEntry)).entry.opencodeMode = true) ∧
    ((channelAutoEnter "#opencode-newproj".data "/ws".data true
        ([], "⚠️ backend failed".data) 5
        ({ codexMode := true, codexProjectDir := Option.some "/old".data } :
          SessionEntry)).entry.codexMode = false) := by
  refine ⟨by decide, by decide, by decide, by decide, by decide, by decide⟩

/-- The precondition of claim C6's amended statement: no backend is
active and every backend-specific field of the session entry is clear. -/
def backendFieldsClear (e : SessionEntry) : Prop :=
  e.opencodeMode = false ∧ e.opencodeProjectDir = Option.none ∧
  e.opencodeAgent = Option.none ∧ e.opencodeModel = Option.none ∧
  e.opencodeResponsePrefix = Option.none ∧
  e.claudeCodeMode = false ∧ e.claudeCodeProjectDir = Option.none ∧
  e.claudeCodeAgent = Option.none ∧ e.claudeCodeModel = Option.none ∧
  e.claudeCodeResponsePrefix = Option.none ∧
  e.codexMode = false ∧ e.codexProjectDir = Option.none ∧
  e.codexAgent = Option.none ∧ e.codexModel = Option.none ∧
  e.codexResponsePrefix = Option.none

/-- Claim C6, counterexample to the claim as stated: starting from a
claude-active `ModeState` (reachable by a channel-name implicit entry),
`enter` followed by `exit` does *not* restore the pre-enter state up to
`updatedAt` — `exit` clears all three backends' fields, so the claude
fields are lost. -/
theorem C6_counterexample_enter_exit_from_claude_state :
    ((channelAutoEnter "#claude-proj".data "/ws".data false ([], []) 1 {}).entry.claudeCodeMode
      = true) ∧
    ((handleOpencodeCommandDirect "!code exit".data 3
        (handleOpencodeCommandDirect "!code /tmp/proj".data 2
          (channelAutoEnter "#claude-proj".data "/ws".data false ([], []) 1 {}).entry).entry).entry.claudeCodeMode
      = false) ∧
    ((handleOpencodeCommandDirect "!code exit".data 3
        (handleOpencodeCommandDirect "!code /tmp/proj".data 2
          (channelAutoEnter "#claude-proj".data "/ws".data false ([], []) 1 {}).entry).entry).entry ≠
      { (channelAutoEnter "#claude-proj".data "/ws".data false ([], []) 1 {}).entry with
          updatedAt := 3 }) := by
  refine ⟨by decide, by decide, by decide⟩

/-- Claim C6, amended: for a starting `ModeState` in which no backend is
active and all backend-specific fields are clear, performing `enter(path)`
(with a path the resolver accepts) and then `exit` yields a `ModeState`
equal to the pre-enter value in every field except `updatedAt`. -/
theorem C6_enter_then_exit_restores_clear_state
    (e : SessionEntry) (body : Str) (d : Str) (t1 t2 : Nat)
    (hclear : backendFieldsClear e)
    (henter : (parseOpencodeCommand body).action = Action.enter)
    (hval : validateProjectDir (parseOpencodeCommand body).value = Option.some d) :
    (handleOpencodeCommandDirect "!code exit".data t2
        (handleOpencodeCommandDirect body t1 e).entry).entry =
      { e with updatedAt := t2 } := by
  obtain ⟨h1, h2, h3, h4, h5, h6, h7, h8, h9, h10, h11, h12, h13, h14, h15⟩ := hclear
  have hexit : (parseOpencodeCommand "!code exit".data).action = Action.exit := by decide
  cases e
  simp only at h1 h2 h3 h4 h5 h6 h7 h8 h9 h10 h11 h12 h13 h14 h15
  subst h1 h2 h3 h4 h5 h6 h7 h8 h9 h10 h11 h12 h13 h14 h15
  simp [handleOpencodeCommandDirect, henter, hexit, hval, clearAllModes]

/-- Claim C6, witness for the amended theorem: entering `/tmp/proj` from a
fresh session entry and exiting restores the fresh entry up to
`updatedAt`. -/
theorem C6_enter_then_exit_restores_clear_state_witness :
    (handleOpencodeCommandDirect "!code exit".data 3
        (handleOpencodeCommandDirect "!code /tmp/proj".data 2 {}).entry).entry =
      { ({} : SessionEntry) with updatedAt := 3 } :=
  C6_enter_then_exit_restores_clear_state {} "!code /tmp/proj".data "/tmp/proj".data 2 3
    ⟨rfl, rfl, rfl, rfl, rfl, rfl, rfl, rfl, rfl, rfl, rfl, rfl, rfl, rfl, rfl⟩
    (by decide) (by decide)

/-! ### Claim C5: `calculateAutoLevel`

Model of `calculateAutoLevel` of `commands-opencode.ts` (lines 348-425).
The JavaScript number arithmetic (ratio, thresholds, `Math.round`) is
modelled in `ℚ`; the thresholds `0.1, 0.2, 0.4, 0.8` become
`1/10, 1/5, 2/5, 4/5`.  The file read (lines 358-384) is modelled by
`readFeedbackCounters` taking the two regex match results. -/

inductive AutoLevel where
  | l0 | l1 | l2 | l3 | l4
  deriving DecidableEq, BEq, Repr

/-- `levelOrder` of line 413. -/
def levelOrder : List AutoLevel :=
  [AutoLevel.l0, AutoLevel.l1, AutoLevel.l2, AutoLevel.l3, AutoLevel.l4]

/-- `levelOrder.indexOf(...)` of lines 414-415. -/
def levelIdx (l : AutoLevel) : Nat := levelOrder.indexOf l

structure AutoLevelResult where
  level : AutoLevel
  ratioVal : ℚ
  percentage : Int
  totalRequests : Nat
  totalAccepted : Nat
  deriving DecidableEq, Repr

/-- Reading the `FeedbackCounter` file: `coding_requests` defaults to `1`
(divide-by-zero guard) and `codes_accepted` to `0` when the regexes do not
match (and the same initial values are used when the file is absent). -/
def readFeedbackCounters (codingMatch acceptedMatch : Option Nat) : Nat × Nat :=
  (codingMatch.getD 1, acceptedMatch.getD 0)

/-- `totalRequests > 0 ? totalAccepted / totalRequests : 0` (line 386). -/
def calcRatioQ (totalRequests totalAccepted : Nat) : ℚ :=
  if 0 < totalRequests then (totalAccepted : ℚ) / (totalRequests : ℚ) else 0

/-- JavaScript `Math.round` (round half toward positive infinity). -/
def jsRound (q : ℚ) : Int := Rat.floor (q + 1/2)

/-- The ratio-to-level if-chain of lines 389-400. -/
def ratioLevelFor (r : ℚ) : AutoLevel :=
  if r ≤ 1/10 then AutoLevel.l0
  else if r ≤ 1/5 then AutoLevel.l1
  else if r ≤ 2/5 then AutoLevel.l2
  else if r ≤ 4/5 then AutoLevel.l3
  else AutoLevel.l4

/-- The request-volume cap of lines 402-411. -/
def requestCapFor (totalRequests : Nat) : AutoLevel :=
  if totalRequests < 20 then AutoLevel.l0
  else if totalRequests < 50 then AutoLevel.l1
  else if totalRequests < 100 then AutoLevel.l2
  else AutoLevel.l4

/-- `calculateAutoLevel` of `commands-opencode.ts` (lines 348-425), pure
core over the counters read from the feedback file. -/
def calculateAutoLevel (totalRequests totalAccepted : Nat) : AutoLevelResult :=
  let r := calcRatioQ totalRequests totalAccepted
  let percentage := jsRound (r * 100)
  let finalLevel :=
    levelOrder.getD
      (min (levelIdx (ratioLevelFor r)) (levelIdx (requestCapFor totalRequests)))
      AutoLevel.l0
  ⟨finalLevel, r, percentage, totalRequests, totalAccepted⟩

theorem calc_level_eq (req acc : Nat) :
    (calculateAutoLevel req acc).level =
      levelOrder.getD
        (min (levelIdx (ratioLevelFor (calcRatioQ req acc))) (levelIdx (requestCapFor req)))
        AutoLevel.l0 := rfl

theorem getD_min_right_le (a b : AutoLevel) (h : levelIdx b ≤ levelIdx a) :
    levelOrder.getD (min (levelIdx a) (levelIdx b)) AutoLevel.l0 = b := by
  cases a <;> cases b <;> revert h <;> decide

theorem levelIdx_getD_min_le_right (a b : AutoLevel) :
    levelIdx (levelOrder.getD (min (levelIdx a) (levelIdx b)) AutoLevel.l0) ≤ levelIdx b := by
  cases a <;> cases b <;> decide

theorem getD_min_of_one_le (a : AutoLevel) (h : 1 ≤ levelIdx a) :
    levelOrder.getD (min (levelIdx a) (levelIdx AutoLevel.l1)) AutoLevel.l0 = AutoLevel.l1 := by
  cases a <;> revert h <;> decide

theorem getD_min_of_two_le (a : AutoLevel) (h : 2 ≤ levelIdx a) :
    levelOrder.getD (min (levelIdx a) (levelIdx AutoLevel.l2)) AutoLevel.l0 = AutoLevel.l2 := by
  cases a <;> revert h <;> decide

theorem getD_min_cap4 (a : AutoLevel) :
    levelOrder.getD (min (levelIdx a) (levelIdx AutoLevel.l4)) AutoLevel.l0 = a := by
  cases a <;> decide

theorem calcRatioQ_le_tenth (req acc : Nat) (h : 0 < req) :
    (calcRatioQ req acc ≤ 1/10) ↔ 10 * acc ≤ req := by
  unfold calcRatioQ
  rw [if_pos h, div_le_div_iff₀ (by exact_mod_cast h) (by norm_num : (0:ℚ) < 10)]
  norm_cast
  omega

theorem calcRatioQ_le_fifth (req acc : Nat) (h : 0 < req) :
    (calcRatioQ req acc ≤ 1/5) ↔ 5 * acc ≤ req := by
  unfold calcRatioQ
  rw [if_pos h, div_le_div_iff₀ (by exact_mod_cast h) (by norm_num : (0:ℚ) < 5)]
  norm_cast
  omega

theorem calcRatioQ_le_two_fifths (req acc : Nat) (h : 0 < req) :
    (calcRatioQ req acc ≤ 2/5) ↔ 5 * acc ≤ 2 * req := by
  unfold calcRatioQ
  rw [if_pos h, div_le_div_iff₀ (by exact_mod_cast h) (by norm_num : (0:ℚ) < 5)]
  norm_cast
  omega

theorem calcRatioQ_le_four_fifths (req acc : Nat) (h : 0 < req) :
    (calcRatioQ req acc ≤ 4/5) ↔ 5 * acc ≤ 4 * req := by
  unfold calcRatioQ
  rw [if_pos h, div_le_div_iff₀ (by exact_mod_cast h) (by norm_num : (0:ℚ) < 5)]
  norm_cast
  omega

theorem ratioLevelFor_one_le {r : ℚ} (h : ¬ r ≤ 1/10) : 1 ≤ levelIdx (ratioLevelFor r) := by
  unfold ratioLevelFor
  rw [if_neg h]
  split_ifs <;> decide

theorem ratioLevelFor_two_le {r : ℚ} (h : ¬ r ≤ 1/5) : 2 ≤ levelIdx (ratioLevelFor r) := by
  have h0 : ¬ r ≤ 1/10 := fun hx => h (hx.trans (by norm_num))
  unfold ratioLevelFor
  rw [if_neg h0, if_neg h]
  split_ifs <;> decide

theorem ratioLevelFor_l0 {r : ℚ} (h : r ≤ 1/10) : ratioLevelFor r = AutoLevel.l0 := by
  unfold ratioLevelFor
  rw [if_pos h]

theorem ratioLevelFor_l1 {r : ℚ} (h0 : ¬ r ≤ 1/10) (h1 : r ≤ 1/5) :
    ratioLevelFor r = AutoLevel.l1 := by
  unfold ratioLevelFor
  rw [if_neg h0, if_pos h1]

theorem ratioLevelFor_l2 {r : ℚ} (h1 : ¬ r ≤ 1/5) (h2 : r ≤ 2/5) :
    ratioLevelFor r = AutoLevel.l2 := by
  have h0 : ¬ r ≤ 1/10 := fun hx => h1 (hx.trans (by norm_num))
  unfold ratioLevelFor
  rw [if_neg h0, if_neg h1, if_pos h2]

theorem ratioLevelFor_l3 {r : ℚ} (h2 : ¬ r ≤ 2/5) (h3 : r ≤ 4/5) :
    ratioLevelFor r = AutoLevel.l3 := by
  have h1 : ¬ r ≤ 1/5 := fun hx => h2 (hx.trans (by norm_num))
  have h0 : ¬ r ≤ 1/10 := fun hx => h1 (hx.trans (by norm_num))
  unfold ratioLevelFor
  rw [if_neg h0, if_neg h1, if_neg h2, if_pos h3]

theorem ratioLevelFor_l4 {r : ℚ} (h3 : ¬ r ≤ 4/5) : ratioLevelFor r = AutoLevel.l4 := by
  have h2 : ¬ r ≤ 2/5 := fun hx => h3 (hx.trans (by norm_num))
  have h1 : ¬ r ≤ 1/5 := fun hx => h2 (hx.trans (by norm_num))
  have h0 : ¬ r ≤ 1/10 := fun hx => h1 (hx.trans (by norm_num))
  unfold ratioLevelFor
  rw [if_neg h0, if_neg h1, if_neg h2, if_neg h3]

theorem requestCapFor_lt20 {n : Nat} (h : n < 20) : requestCapFor n = AutoLevel.l0 := by
  simp [requestCapFor, h]

theorem requestCapFor_20_50 {n : Nat} (h1 : 20 ≤ n) (h2 : n < 50) :
    requestCapFor n = AutoLevel.l1 := by
  simp [requestCapFor, h2, show ¬ n < 20 by omega]

theorem requestCapFor_50_100 {n : Nat} (h1 : 50 ≤ n) (h2 : n < 100) :
    requestCapFor n = AutoLevel.l2 := by
  simp [requestCapFor, h2, show ¬ n < 20 by omega, show ¬ n < 50 by omega]

theorem requestCapFor_ge100 {n : Nat} (h : 100 ≤ n) : requestCapFor n = AutoLevel.l4 := by
  simp [requestCapFor, show ¬ n < 20 by omega, show ¬ n < 50 by omega,
    show ¬ n < 100 by omega]

/-- Claim C5: `calculateAutoLevel` computes ratio = accepted/requests with
requests defaulting to 1; maps the ratio to `l0..l4` by the thresholds
`≤0.1, ≤0.2, ≤0.4, ≤0.8, >0.8` (stated in exact integer form); caps the
level at `l0`/`l1`/`l2` for fewer than 20/50/100 requests and uncaps at
`≥100`, returning the minimum of ratio-level and cap; and in particular
`requests=10, accepted=5` yields `l0` while `requests=120, accepted=100`
yields `l4` with percentage 83. -/
theorem C5_calculateAutoLevel_thresholds_caps_examples :
    readFeedbackCounters Option.none Option.none = (1, 0) ∧
    (∀ req acc : Nat, req < 20 → (calculateAutoLevel req acc).level = AutoLevel.l0) ∧
    (∀ req acc : Nat, 20 ≤ req → req < 50 →
      levelIdx (calculateAutoLevel req acc).level ≤ 1 ∧
      (req < 10 * acc → (calculateAutoLevel req acc).level = AutoLevel.l1)) ∧
    (∀ req acc : Nat, 50 ≤ req → req < 100 →
      levelIdx (calculateAutoLevel req acc).level ≤ 2 ∧
      (req < 5 * acc → (calculateAutoLevel req acc).level = AutoLevel.l2)) ∧
    (∀ req acc : Nat, 100 ≤ req →
      (10 * acc ≤ req → (calculateAutoLevel req acc).level = AutoLevel.l0) ∧
      (req < 10 * acc → 5 * acc ≤ req → (calculateAutoLevel req acc).level = AutoLevel.l1) ∧
      (req < 5 * acc → 5 * acc ≤ 2 * req → (calculateAutoLevel req acc).level = AutoLevel.l2) ∧
      (2 * req < 5 * acc → 5 * acc ≤ 4 * req →
        (calculateAutoLevel req acc).level = AutoLevel.l3) ∧
      (4 * req < 5 * acc → (calculateAutoLevel req acc).level = AutoLevel.l4)) ∧
    (calculateAutoLevel 10 5).level = AutoLevel.l0 ∧
    (calculateAutoLevel 120 100).level = AutoLevel.l4 ∧
    (calculateAutoLevel 120 100).percentage = 83 := by
  refine ⟨rfl, ?_, ?_, ?_, ?_, ?_, ?_, ?_⟩
  · intro req acc h
    rw [calc_level_eq, requestCapFor_lt20 h]
    exact getD_min_right_le _ _ (Nat.zero_le _)
  · intro req acc h1 h2
    have hpos : 0 < req := by omega
    constructor
    · have hle := levelIdx_getD_min_le_right (ratioLevelFor (calcRatioQ req acc))
        (requestCapFor req)
      rw [← calc_level_eq] at hle
      rw [requestCapFor_20_50 h1 h2] at hle
      exact hle.trans (by decide)
    · intro hacc
      rw [calc_level_eq, requestCapFor_20_50 h1 h2]
      refine getD_min_of_one_le _ (ratioLevelFor_one_le ?_)
      rw [calcRatioQ_le_tenth req acc hpos]
      omega
  · intro req acc h1 h2
    have hpos : 0 < req := by omega
    constructor
    · have hle := levelIdx_getD_min_le_right (ratioLevelFor (calcRatioQ req acc))
        (requestCapFor req)
      rw [← calc_level_eq] at hle
      rw [requestCapFor_50_100 h1 h2] at hle
      exact hle.trans (by decide)
    · intro hacc
      rw [calc_level_eq, requestCapFor_50_100 h1 h2]
      refine getD_min_of_two_le _ (ratioLevelFor_two_le ?_)
      rw [calcRatioQ_le_fifth req acc hpos]
      omega
  · intro req acc h
    have hpos : 0 < req := by omega
    refine ⟨?_, ?_, ?_, ?_, ?_⟩
    · intro hx
      rw [calc_level_eq, requestCapFor_ge100 h, getD_min_cap4,
        ratioLevelFor_l0 ((calcRatioQ_le_tenth req acc hpos).mpr hx)]
    · intro hx1 hx2
      rw [calc_level_eq, requestCapFor_ge100 h, getD_min_cap4,
        ratioLevelFor_l1 (fun hc => by have := (calcRatioQ_le_tenth req acc hpos).mp hc; omega)
          ((calcRatioQ_le_fifth req acc hpos).mpr hx2)]
    · intro hx1 hx2
      rw [calc_level_eq, requestCapFor_ge100 h, getD_min_cap4,
        ratioLevelFor_l2 (fun hc => by have := (calcRatioQ_le_fifth req acc hpos).mp hc; omega)
          ((calcRatioQ_le_two_fifths req acc hpos).mpr hx2)]
    · intro hx1 hx2
      rw [calc_level_eq, requestCapFor_ge100 h, getD_min_cap4,
        ratioLevelFor_l3
          (fun hc => by have := (calcRatioQ_le_two_fifths req acc hpos).mp hc; omega)
          ((calcRatioQ_le_four_fifths req acc hpos).mpr hx2)]
    · intro hx
      rw [calc_level_eq, requestCapFor_ge100 h, getD_min_cap4,
        ratioLevelFor_l4
          (fun hc => by have := (calcRatioQ_le_four_fifths req acc hpos).mp hc; omega)]
  · rw [calc_level_eq, requestCapFor_lt20 (by omega : (10:Nat) < 20)]
    exact getD_min_right_le _ _ (Nat.zero_le _)
  · rw [calc_level_eq, requestCapFor_ge100 (by omega : (100:Nat) ≤ 120), getD_min_cap4,
      ratioLevelFor_l4
        (fun hc => by have := (calcRatioQ_le_four_fifths 120 100 (by omega)).mp hc; omega)]
  · show jsRound (calcRatioQ 120 100 * 100) = 83
    have hr : calcRatioQ 120 100 * 100 + 1/2 = 503/6 := by
      norm_num [calcRatioQ]
    unfold jsRound
    rw [hr, Rat.floor_def']
    norm_num

/-- Claim C5, witness for the universally quantified parts of the theorem:
the under-20 cap applied at `requests = 15, accepted = 9`, and the
uncapped threshold mapping at `requests = 200, accepted = 90`
(ratio 0.45, level `l3`). -/
theorem C5_calculateAutoLevel_thresholds_caps_examples_witness :
    (calculateAutoLevel 15 9).level = AutoLevel.l0 ∧
    (calculateAutoLevel 200 90).level = AutoLevel.l3 := by
  constructor
  · exact C5_calculateAutoLevel_thresholds_caps_examples.2.1 15 9 (by decide)
  · exact (C5_calculateAutoLevel_thresholds_caps_examples.2.2.2.2.1 200 90
      (by decide)).2.2.2.1 (by decide) (by decide)

/-! ### Claim C7: backend adapter failure semantics -/

/-- Modelled from the spec: outcome of one backend subprocess invocation
as surfaced by `runCommandWithTimeout` (`src/process/exec.ts`, a
repository file not included under `src/`; per the spec the 300 s ceiling
forcibly kills the subprocess and reports `termination = "timeout"`), or
by the visible `spawn`-based streaming runner: a spawn error with its
message, the timeout, or process exit with code, stdout and stderr. -/
inductive ProcOutcome where
  | spawnError (msg : Str)
  | timeout
  | exited (code : Int) (stdout stderr : Str)
  deriving DecidableEq, Repr

structure RunResult where
  text : Str
  error : Option Str
  responsePrefix : Str
  deriving DecidableEq, Repr

/-- `runOpencodeCommand` of `commands-opencode.ts` (lines 707-742): the
mapping from the subprocess outcome to the adapter result (argument-list
construction and binary lookup feed the subprocess and are absorbed into
the outcome argument).  The claude and codex adapters (lines 1011-1052,
1117-1164) share this exact branch structure. -/
def runOpencodeCommand (projectDir agent : Str) (outcome : ProcOutcome) : RunResult :=
  let responsePrefix :=
    "[opencode:".data ++ getRepoName projectDir ++ "|".data ++ agent ++ "]".data
  match outcome with
  | ProcOutcome.spawnError msg =>
    ⟨[], Option.some ("❌ Error: ".data ++ msg), responsePrefix⟩
  | ProcOutcome.timeout =>
    ⟨[], Option.some "⏱️ Command timed out.".data, responsePrefix⟩
  | ProcOutcome.exited code stdout stderr =>
    if code ≠ 0 ∧ stderr ≠ [] then
      ⟨stdout, Option.some ("⚠️ ".data ++ stderr), responsePrefix⟩
    else ⟨stdout, Option.none, responsePrefix⟩

structure StreamingResult where
  error : Option Str
  chunks : List Str
  sigkillSent : Bool
  deriving DecidableEq, Repr

/-- `runOpencodeCommandStreaming` of `commands-opencode.ts`
(lines 744-799).  `chunksIn` are the stdout chunks delivered to `onChunk`
before the terminal event; the terminal event appends its error chunk and
determines the resolved error.  `sigkillSent` records the
`child.kill("SIGKILL")` call of the timeout branch. -/
def runOpencodeCommandStreaming (chunksIn : List Str) (outcome : ProcOutcome) :
    StreamingResult :=
  match outcome with
  | ProcOutcome.spawnError msg =>
    ⟨Option.some msg, chunksIn ++ ["\n❌ Error: ".data ++ msg], false⟩
  | ProcOutcome.timeout =>
    ⟨Option.some "⏱️ Command timed out.".data, chunksIn, true⟩
  | ProcOutcome.exited code _stdout stderr =>
    if code ≠ 0 ∧ stderr ≠ [] then
      ⟨Option.some stderr, chunksIn ++ ["\n⚠️ ".data ++ stderr], false⟩
    else ⟨Option.none, chunksIn, false⟩

/-- Claim C7: adapter failure semantics.  A spawn error yields the spawn
message as the error (with the `❌ Error: ` glyph prefix in the
synchronous adapter, raw in the streaming one); a timeout yields the
timed-out error and, in the streaming runner, sends SIGKILL to the
subprocess; a non-zero exit with non-empty stderr yields the partial
stdout as text plus stderr as the error; and a non-zero exit with empty
stderr is a success carrying whatever stdout was produced, with no
error. -/
theorem C7_adapter_failure_semantics :
    (∀ pd ag msg : Str,
      (runOpencodeCommand pd ag (ProcOutcome.spawnError msg)).text = [] ∧
      (runOpencodeCommand pd ag (ProcOutcome.spawnError msg)).error =
        Option.some ("❌ Error: ".data ++ msg)) ∧
    (∀ pd ag : Str,
      (runOpencodeCommand pd ag ProcOutcome.timeout).text = [] ∧
      (runOpencodeCommand pd ag ProcOutcome.timeout).error =
        Option.some "⏱️ Command timed out.".data) ∧
    (∀ chunks : List Str,
      (runOpencodeCommandStreaming chunks ProcOutcome.timeout).sigkillSent = true ∧
      (runOpencodeCommandStreaming chunks ProcOutcome.timeout).error =
        Option.some "⏱️ Command timed out.".data) ∧
    (∀ (pd ag : Str) (code : Int) (stdout stderr : Str), code ≠ 0 → stderr ≠ [] →
      (runOpencodeCommand pd ag (ProcOutcome.exited code stdout stderr)).text = stdout ∧
      (runOpencodeCommand pd ag (ProcOutcome.exited code stdout stderr)).error =
        Option.some ("⚠️ ".data ++ stderr)) ∧
    (∀ (pd ag : Str) (code : Int) (stdout : Str),
      (runOpencodeCommand pd ag (ProcOutcome.exited code stdout [])).text = stdout ∧
      (runOpencodeCommand pd ag (ProcOutcome.exited code stdout [])).error = Option.none) ∧
    (∀ (chunks : List Str) (msg : Str),
      (runOpencodeCommandStreaming chunks (ProcOutcome.spawnError msg)).error =
        Option.some msg) ∧
    (∀ (chunks : List Str) (code : Int) (stdout stderr : Str), code ≠ 0 → stderr ≠ [] →
      (runOpencodeCommandStreaming chunks (ProcOutcome.exited code stdout stderr)).error =
        Option.some stderr) ∧
    (∀ (chunks : List Str) (code : Int) (stdout : Str),
      (runOpencodeCommandStreaming chunks (ProcOutcome.exited code stdout [])).error =
        Option.none) := by
  refine ⟨fun pd ag msg => ⟨rfl, rfl⟩, fun pd ag => ⟨rfl, rfl⟩,
    fun chunks => ⟨rfl, rfl⟩, ?_, ?_, fun chunks msg => rfl, ?_, ?_⟩
  · intro pd ag code stdout stderr hc hs
    simp only [runOpencodeCommand]
    rw [if_pos ⟨hc, hs⟩]
    exact ⟨rfl, rfl⟩
  · intro pd ag code stdout
    simp only [runOpencodeCommand]
    rw [if_neg (fun hcs : _ ∧ ([] : Str) ≠ [] => hcs.2 rfl)]
    exact ⟨rfl, rfl⟩
  · intro chunks code stdout stderr hc hs
    simp only [runOpencodeCommandStreaming]
    rw [if_pos ⟨hc, hs⟩]
  · intro chunks code stdout
    simp only [runOpencodeCommandStreaming]
    rw [if_neg (fun hcs : _ ∧ ([] : Str) ≠ [] => hcs.2 rfl)]

/-- Claim C7, witness at concrete inputs: exit code 1 with stderr `"err"`
gives partial stdout plus the stderr error; exit code 1 with empty stderr
is a success. -/
theorem C7_adapter_failure_semantics_witness :
    ((runOpencodeCommand "/p".data "build".data
        (ProcOutcome.exited 1 "out".data "err".data)).text = "out".data ∧
      (runOpencodeCommand "/p".data "build".data
        (ProcOutcome.exited 1 "out".data "err".data)).error =
        Option.some ("⚠️ ".data ++ "err".data)) ∧
    ((runOpencodeCommandStreaming ["out".data] (ProcOutcome.exited 1 "out".data [])).error =
      Option.none) :=
  ⟨C7_adapter_failure_semantics.2.2.2.1 "/p".data "build".data 1 "out".data "err".data
      (by decide) (by decide),
    C7_adapter_failure_semantics.2.2.2.2.2.2.2 ["out".data] 1 "out".data⟩

/-! ### Claim C4: the streaming relay -/

/-- `haystack.includes(needle)`. -/
def containsSeq (pat : Str) : Str → Bool
  | [] => pat.isPrefixOf []
  | c :: rest => pat.isPrefixOf (c :: rest) || containsSeq pat rest

/-- The urgent-marker test of the relay (line 1944):
`chunk.includes("❌") || chunk.includes("⚠️")`. -/
def urgentChunk (s : Str) : Bool := containsSeq "❌".data s || containsSeq "⚠️".data s

/-- `fullOutput.slice(-3000)`: the last 3000 characters (the whole string
when shorter). -/
def tail3000 (s : Str) : Str := s.drop (s.length - 3000)

/-- Relay state: the rolling buffer `fullOutput`, the `lastUpdate`
timestamp (ms), the list of texts passed to `editSlackMessage`, and per
chunk whether it triggered an edit. -/
structure RelayState where
  fullOutput : Str
  lastUpdate : Nat
  edits : List Str
  fired : List Bool
  deriving DecidableEq, Repr

/-- One chunk arriving at time `atMs`. -/
structure RelayChunk where
  text : Str
  atMs : Nat
  deriving DecidableEq, Repr

/-- One `onChunk` callback of the opencode streaming relay
(`commands-opencode 2.ts` lines 1941-1953): append the chunk to the
buffer; if at least 1000 ms passed since the last edit, or the chunk
contains an urgent marker, edit the message to the response prefix plus
the tail-truncated buffer and reset `lastUpdate`.  (Timestamps are
nondecreasing in a run; the truncated `Nat` subtraction agrees with the
JavaScript signed difference on them.) -/
def relayStep (rp : Str) (st : RelayState) (c : RelayChunk) : RelayState :=
  let full := st.fullOutput ++ c.text
  if 1000 ≤ c.atMs - st.lastUpdate ∨ urgentChunk c.text = true then
    ⟨full, c.atMs, st.edits ++ [rp ++ '\n' :: tail3000 full], st.fired ++ [true]⟩
  else ⟨full, st.lastUpdate, st.edits, st.fired ++ [false]⟩

/-- The whole relay run (lines 1934-1957): fold the chunks through
`relayStep` with `lastUpdate` initialized to the stream start, then the
unconditional final flush of lines 1956-1957. -/
def relayRun (rp : Str) (start : Nat) (chunks : List RelayChunk) : RelayState :=
  let st := chunks.foldl (relayStep rp) ⟨[], start, [], []⟩
  ⟨st.fullOutput, st.lastUpdate, st.edits ++ [rp ++ '\n' :: tail3000 st.fullOutput], st.fired⟩

theorem relay_foldl_full (chunks : List RelayChunk) :
    ∀ (rp : Str) (st : RelayState),
      (chunks.foldl (relayStep rp) st).fullOutput =
        st.fullOutput ++ (chunks.map RelayChunk.text).flatten := by
  induction chunks with
  | nil => intro rp st; simp
  | cons c cs ih =>
    intro rp st
    rw [List.foldl_cons, ih]
    have hstep : (relayStep rp st c).fullOutput = st.fullOutput ++ c.text := by
      unfold relayStep
      split <;> rfl
    rw [hstep]
    simp

theorem relay_foldl_count (chunks : List RelayChunk) :
    ∀ (rp : Str) (st : RelayState),
      st.edits.length = st.fired.count true →
      (chunks.foldl (relayStep rp) st).edits.length =
        (chunks.foldl (relayStep rp) st).fired.count true := by
  induction chunks with
  | nil => intro rp st h; simpa using h
  | cons c cs ih =>
    intro rp st h
    rw [List.foldl_cons]
    refine ih rp _ ?_
    unfold relayStep
    split <;> simp [List.count_append, h]

theorem relay_foldl_fired_prefix (chunks : List RelayChunk) :
    ∀ (rp : Str) (st : RelayState),
      st.fired <+: (chunks.foldl (relayStep rp) st).fired := by
  induction chunks with
  | nil => intro rp st; exact List.prefix_rfl
  | cons c cs ih =>
    intro rp st
    rw [List.foldl_cons]
    refine List.IsPrefix.trans ?_ (ih rp (relayStep rp st c))
    unfold relayStep
    split <;> exact List.prefix_append _ _

theorem relay_foldl_fired_length (chunks : List RelayChunk) :
    ∀ (rp : Str) (st : RelayState),
      (chunks.foldl (relayStep rp) st).fired.length = st.fired.length + chunks.length := by
  induction chunks with
  | nil => intro rp st; simp
  | cons c cs ih =>
    intro rp st
    rw [List.foldl_cons, ih]
    have hstep : (relayStep rp st c).fired.length = st.fired.length + 1 := by
      unfold relayStep
      split <;> simp
    rw [hstep]
    simp
    omega

/-- Claim C4, amended: (1) the final flush is always performed and always
shows the full concatenated output, tail-truncated to its last 3000
characters and prefixed by the mode's response prefix; (2) the number of
edit calls is the number of chunks that passed the gate (≥ 1 s since the
previous edit, or an urgent marker) plus exactly one final flush; (3)
every urgent-marker chunk passes the gate at its own position, regardless
of timing. -/
theorem C4_relay_final_flush_and_gate :
    (∀ (rp : Str) (start : Nat) (chunks : List RelayChunk),
      (relayRun rp start chunks).edits.getLast? =
        Option.some (rp ++ '\n' :: tail3000 ((chunks.map RelayChunk.text).flatten))) ∧
    (∀ (rp : Str) (start : Nat) (chunks : List RelayChunk),
      (relayRun rp start chunks).edits.length =
        (relayRun rp start chunks).fired.count true + 1) ∧
    (∀ (rp : Str) (start : Nat) (pre : List RelayChunk) (c : RelayChunk)
        (post : List RelayChunk), urgentChunk c.text = true →
      (relayRun rp start (pre ++ c :: post)).fired.getD pre.length false = true) := by
  refine ⟨?_, ?_, ?_⟩
  · intro rp start chunks
    show (_ ++ [_]).getLast? = _
    rw [List.getLast?_concat]
    rw [relay_foldl_full chunks rp ⟨[], start, [], []⟩]
    rfl
  · intro rp start chunks
    show (_ ++ [_]).length = _
    rw [List.length_append]
    rw [relay_foldl_count chunks rp ⟨[], start, [], []⟩ rfl]
    rfl
  · intro rp start pre c post h
    show ((pre ++ c :: post).foldl (relayStep rp) ⟨[], start, [], []⟩).fired.getD pre.length false = true
    rw [List.foldl_append, List.foldl_cons]
    have hlen : (pre.foldl (relayStep rp) ⟨[], start, [], []⟩).fired.length = pre.length := by
      simpa using relay_foldl_fired_length pre rp ⟨[], start, [], []⟩
    have hstep : (relayStep rp (pre.foldl (relayStep rp) ⟨[], start, [], []⟩) c).fired =
        (pre.foldl (relayStep rp) ⟨[], start, [], []⟩).fired ++ [true] := by
      unfold relayStep
      rw [if_pos (Or.inr h)]
    obtain ⟨t, ht⟩ := relay_foldl_fired_prefix post rp
      (relayStep rp (pre.foldl (relayStep rp) ⟨[], start, [], []⟩) c)
    rw [← ht, hstep, List.append_assoc,
      List.getD_append_right _ _ _ _ (le_of_eq hlen), hlen]
    simp

/-- Claim C4, witness for the urgent-flush part of the amended theorem:
an urgent chunk arriving immediately (0 ms after stream start) still
triggers an edit at its position. -/
theorem C4_relay_final_flush_and_gate_witness :
    (relayRun "[opencode:p|build]".data 0
        ([] ++ (⟨"❌ boom".data, 0⟩ : RelayChunk) :: [⟨"x".data, 1⟩])).fired.getD 0 false =
      true :=
  C4_relay_final_flush_and_gate.2.2 "[opencode:p|build]".data 0 []
    ⟨"❌ boom".data, 0⟩ [⟨"x".data, 1⟩] (by decide)

/-- Claim C4, counterexample to the claim as stated: two non-urgent
chunks at 0 ms and 2500 ms produce 2 edit calls (one gated edit plus the
final flush), but the claimed formula `⌈duration / 1s⌉ + 1` predicts
`⌈2500/1000⌉ + 1 = 4`.  The gate is "≥ 1 s since the last edit", not one
edit per elapsed second. -/
theorem C4_counterexample_edit_count_formula :
    ((relayRun "[opencode:p|build]".data 0
        [⟨"a".data, 0⟩, ⟨"b".data, 2500⟩]).edits.length = 2) ∧
    ((2500 - 0 + 999) / 1000 + 1 = 4) ∧ ((2 : Nat) ≠ 4) := by
  refine ⟨by decide, by decide, by decide⟩

/-! ### Claim C10: the message routing pipeline and the leading-slash gate -/

/-- `/^!code(\s|$)/i` tested against the trimmed body (line 1749). -/
def isCodeCmd (trimmed : Str) : Bool :=
  "!code".data.isPrefixOf (lowerStr trimmed) &&
    (match (lowerStr trimmed).drop 5 with
     | [] => true
     | c :: _ => isWsChar c)

/-- `/^!plan\s/i` (line 1750). -/
def isPlanCmd (trimmed : Str) : Bool :=
  "!plan".data.isPrefixOf (lowerStr trimmed) &&
    (match (lowerStr trimmed).drop 5 with
     | [] => false
     | c :: _ => isWsChar c)

/-- `/^!build\s/i` (line 1751). -/
def isBuildCmd (trimmed : Str) : Bool :=
  "!build".data.isPrefixOf (lowerStr trimmed) &&
    (match (lowerStr trimmed).drop 6 with
     | [] => false
     | c :: _ => isWsChar c)

/-- `isOpencodeCommand` of lines 1748-1751. -/
def isOpencodeCommandBody (body : Str) : Bool :=
  isCodeCmd (trimStr body) || isPlanCmd (trimStr body) || isBuildCmd (trimStr body)

/-- `isRateCommand` of line 1770: `/^!rate\s/i` on the trimmed body. -/
def isRateCmd (body : Str) : Bool :=
  "!rate".data.isPrefixOf (lowerStr (trimStr body)) &&
    (match (lowerStr (trimStr body)).drop 5 with
     | [] => false
     | c :: _ => isWsChar c)

/-- Outcome of routing one inbound message.  `rateReply` carries no
payload: the `!rate` reply text depends on the feedback file and both of
its branches return before any forwarding, which is all C10 needs. -/
inductive RouteOutcome where
  | channelEntered (replyText : Str)
  | codeCommand (replyText : Str)
  | rateReply
  | forwarded (mode : CodeMode) (message : Str)
  | fallthrough
  deriving DecidableEq, Repr

/-- The backend-forwarding gates of `getReplyFromConfig`
(`commands-opencode 2.ts` lines 1851-1853, 1976-1978, 2098-2100): a
backend block runs only when its mode flag is set, its project directory
is truthy and the body is truthy, and it forwards exactly when the body
does not start with `/`; otherwise control falls through to the next
block and finally to the normal agent pipeline. -/
def routeForward (e : SessionEntry) (body : Str) : RouteOutcome :=
  if e.opencodeMode = true ∧ e.opencodeProjectDir.getD [] ≠ [] ∧ body ≠ [] ∧
      "/".data.isPrefixOf body = false then
    RouteOutcome.forwarded CodeMode.opencode body
  else if e.claudeCodeMode = true ∧ e.claudeCodeProjectDir.getD [] ≠ [] ∧ body ≠ [] ∧
      "/".data.isPrefixOf body = false then
    RouteOutcome.forwarded CodeMode.claude body
  else if e.codexMode = true ∧ e.codexProjectDir.getD [] ≠ [] ∧ body ≠ [] ∧
      "/".data.isPrefixOf body = false then
    RouteOutcome.forwarded CodeMode.codex body
  else RouteOutcome.fallthrough

/-- The stages after the `!code` command handling: the `!rate` command
(both of whose branches return), then the forwarding gates. -/
def routeAfterCode (e : SessionEntry) (body : Str) : RouteOutcome :=
  if isRateCmd body = true then RouteOutcome.rateReply else routeForward e body

/-- The mode-router slice of `getReplyFromConfig`
(`commands-opencode 2.ts`, lines 1433-2217), non-Slack delivery path:
channel auto-enter, then `!code`/`!plan`/`!build` direct handling (a
`null` handler result falls through), then `!rate`, then the
backend-forwarding gates.  The Slack-only status command (guarded by a
Slack surface check) does not arise on this path.  Returns the routing
outcome and the resulting session entry. -/
def routeMessage (label : Option Str) (workspaceDir : Str) (workspaceHasProject : Bool)
    (migResult : Str × Str) (now : Nat) (e : SessionEntry) (body : Str) :
    RouteOutcome × SessionEntry :=
  let ae :=
    match label with
    | Option.some l => channelAutoEnter l workspaceDir workspaceHasProject migResult now e
    | Option.none =>
      ⟨e, false, Option.none, Option.none, Option.none, Option.none, false⟩
  if ae.consumed = true then (RouteOutcome.channelEntered (ae.replyText.getD []), ae.entry)
  else if isOpencodeCommandBody body = true then
    let d := handleOpencodeCommandDirect body now ae.entry
    match d.reply with
    | Option.some t => (RouteOutcome.codeCommand t, d.entry)
    | Option.none => (routeAfterCode d.entry body, d.entry)
  else (routeAfterCode ae.entry body, ae.entry)

theorem dropWhile_append_singleton {p : Char → Bool} {c : Char} (h : p c = false)
    (l : Str) : (l ++ [c]).dropWhile p = l.dropWhile p ++ [c] := by
  induction l with
  | nil => simp [List.dropWhile_cons, h]
  | cons a as ih =>
    by_cases ha : p a
    · simp [List.dropWhile_cons, ha, ih]
    · simp [List.dropWhile_cons, ha]

theorem trimStr_cons_not_ws {c : Char} (h : isWsChar c = false) (rest : Str) :
    trimStr (c :: rest) = c :: (rest.reverse.dropWhile isWsChar).reverse := by
  unfold trimStr
  rw [List.dropWhile_cons, if_neg (by simp [h]), List.reverse_cons,
    dropWhile_append_singleton h, List.reverse_append]
  rfl

theorem bang_not_prefix_of_slash (p X : Str) :
    ('!' :: p).isPrefixOf ('/' :: X) = false := by
  simp [List.isPrefixOf]

/-- A message starting with `/` matches none of the `!`-prefixed command
patterns. -/
theorem slash_no_bang_cmds (rest : Str) :
    isOpencodeCommandBody ('/' :: rest) = false ∧ isRateCmd ('/' :: rest) = false := by
  have htrim : trimStr ('/' :: rest) =
      '/' :: (rest.reverse.dropWhile isWsChar).reverse :=
    trimStr_cons_not_ws (by decide) rest
  have hlow : lowerStr (trimStr ('/' :: rest)) =
      '/' :: lowerStr ((rest.reverse.dropWhile isWsChar).reverse) := by
    rw [htrim]; rfl
  constructor
  · unfold isOpencodeCommandBody isCodeCmd isPlanCmd isBuildCmd
    rw [hlow]
    simp [bang_not_prefix_of_slash]
  · unfold isRateCmd
    rw [hlow]
    simp [bang_not_prefix_of_slash]

/-- Claim C10, amended: while a backend mode is active with a non-empty
project directory, (1) every message beginning with `/` bypasses backend
forwarding, whatever stage handles it; and (2) a non-empty message not
beginning with `/` is forwarded to the active backend provided it is not
consumed by an earlier stage — the channel auto-enter (here: no matching
channel label), the `!code`/`!plan`/`!build` handler, or the `!rate`
command.  Parts (2)-(4) cover the three backends, in the order the code
checks them. -/
theorem C10_slash_gate_and_forwarding :
    (∀ (label : Option Str) (ws : Str) (whp : Bool) (mig : Str × Str) (now : Nat)
        (e : SessionEntry) (rest : Str) (m : CodeMode) (msg : Str),
      (routeMessage label ws whp mig now e ('/' :: rest)).1 ≠
        RouteOutcome.forwarded m msg) ∧
    (∀ (ws : Str) (whp : Bool) (mig : Str × Str) (now : Nat) (e : SessionEntry)
        (body : Str),
      e.opencodeMode = true → e.opencodeProjectDir.getD [] ≠ [] → body ≠ [] →
      "/".data.isPrefixOf body = false →
      isOpencodeCommandBody body = false → isRateCmd body = false →
      (routeMessage Option.none ws whp mig now e body).1 =
        RouteOutcome.forwarded CodeMode.opencode body) ∧
    (∀ (ws : Str) (whp : Bool) (mig : Str × Str) (now : Nat) (e : SessionEntry)
        (body : Str),
      e.opencodeMode = false → e.claudeCodeMode = true →
      e.claudeCodeProjectDir.getD [] ≠ [] → body ≠ [] →
      "/".data.isPrefixOf body = false →
      isOpencodeCommandBody body = false → isRateCmd body = false →
      (routeMessage Option.none ws whp mig now e body).1 =
        RouteOutcome.forwarded CodeMode.claude body) ∧
    (∀ (ws : Str) (whp : Bool) (mig : Str × Str) (now : Nat) (e : SessionEntry)
        (body : Str),
      e.opencodeMode = false → e.claudeCodeMode = false → e.codexMode = true →
      e.codexProjectDir.getD [] ≠ [] → body ≠ [] →
      "/".data.isPrefixOf body = false →
      isOpencodeCommandBody body = false → isRateCmd body = false →
      (routeMessage Option.none ws whp mig now e body).1 =
        RouteOutcome.forwarded CodeMode.codex body) := by
  refine ⟨?_, ?_, ?_, ?_⟩
  · intro label ws whp mig now e rest m msg
    obtain ⟨hcmd, hrate⟩ := slash_no_bang_cmds rest
    have hslash : "/".data.isPrefixOf ('/' :: rest) = true := by simp [List.isPrefixOf]
    have hforward : ∀ e2 : SessionEntry,
        routeAfterCode e2 ('/' :: rest) = RouteOutcome.fallthrough := by
      intro e2
      unfold routeAfterCode routeForward
      rw [if_neg (by rw [hrate]; exact Bool.false_ne_true),
        if_neg (fun hc => by rw [hslash] at hc; exact absurd hc.2.2.2 (by decide)),
        if_neg (fun hc => by rw [hslash] at hc; exact absurd hc.2.2.2 (by decide)),
        if_neg (fun hc => by rw [hslash] at hc; exact absurd hc.2.2.2 (by decide))]
    cases label with
    | none => simp [routeMessage, hcmd, hforward]
    | some l =>
      by_cases hc : (channelAutoEnter l ws whp mig now e).consumed = true
      · simp [routeMessage, hc]
      · simp [routeMessage, hc, hcmd, hforward]
  · intro ws whp mig now e body h1 h2 h3 h4 h5 h6
    simp [routeMessage, routeAfterCode, routeForward, h1, h2, h3, h4, h5, h6]
  · intro ws whp mig now e body h0 h1 h2 h3 h4 h5 h6
    simp [routeMessage, routeAfterCode, routeForward, h0, h1, h2, h3, h4, h5, h6]
  · intro ws whp mig now e body h0 h0b h1 h2 h3 h4 h5 h6
    simp [routeMessage, routeAfterCode, routeForward, h0, h0b, h1, h2, h3, h4, h5, h6]

/-- Claim C10, witness for the amended theorem: with opencode active on
`/p`, the message `"hello"` is forwarded to opencode, and the message
`"/unknown"` (not a recognized command) is not forwarded. -/
theorem C10_slash_gate_and_forwarding_witness :
    ((routeMessage Option.none "/ws".data false ([], []) 9
        ({ opencodeMode := true, opencodeProjectDir := Option.some "/p".data } :
          SessionEntry) "hello".data).1 =
      RouteOutcome.forwarded CodeMode.opencode "hello".data) ∧
    ((routeMessage Option.none "/ws".data false ([], []) 9
        ({ opencodeMode := true, opencodeProjectDir := Option.some "/p".data } :
          SessionEntry) "/unknown".data).1 ≠
      RouteOutcome.forwarded CodeMode.opencode "/unknown".data) :=
  ⟨C10_slash_gate_and_forwarding.2.1 "/ws".data false ([], []) 9
      ({ opencodeMode := true, opencodeProjectDir := Option.some "/p".data } : SessionEntry)
      "hello".data rfl (by decide) (by decide) (by decide) (by decide) (by decide),
    C10_slash_gate_and_forwarding.1 Option.none "/ws".data false ([], []) 9
      ({ opencodeMode := true, opencodeProjectDir := Option.some "/p".data } : SessionEntry)
      "unknown".data CodeMode.opencode "/unknown".data⟩

/-- Claim C10, counterexample to the claim as stated: with opencode mode
active on a non-empty project directory, the message `"!rate now"` does
not start with `/` yet is not forwarded to the backend — it is consumed by
the `!rate` command stage.  The forwarded-iff-no-leading-slash biconditional
therefore fails. -/
theorem C10_counterexample_rate_command_not_forwarded :
    ((routeMessage Option.none "/ws".data false ([], []) 9
        ({ opencodeMode := true, opencodeProjectDir := Option.some "/p".data } :
          SessionEntry) "!rate now".data).1 = RouteOutcome.rateReply) ∧
    ("/".data.isPrefixOf "!rate now".data = false) ∧
    (RouteOutcome.rateReply ≠
      RouteOutcome.forwarded CodeMode.opencode "!rate now".data) := by
  refine ⟨by decide, by decide, by decide⟩

end OpenClaw
